import Mathlib

/-!
Verification development for the Telegram-export statistics pipeline
(`back_new/stats.py`).

Python strings are modelled as lists of Unicode codepoints (`PyStr`);
all string operations used by the pipeline (`strip`, `split`,
`casefold`, `title`, regex character classes, prefix/substring tests)
are defined over codepoints, following CPython semantics.  The Unicode
case tables are reproduced on the codepoint ranges the pipeline's data
actually exercises (ASCII, the basic Cyrillic block, and the pair
U+023F/U+2C7E); all other codepoints are case-invariant in the model.
DOM navigation done by BeautifulSoup (CSS selectors, `get_text`) is
modelled by exposing each selector's result as a field of the node
structure; the selector outcomes themselves are inputs of the model.
-/

/-- A Python `str`, as its list of Unicode codepoints. -/
abbrev PyStr := List Nat

/-- Embed a Lean string literal as a codepoint list. -/
def s2l (s : String) : PyStr := s.toList.map Char.toNat

/-- Codepoints treated as whitespace by `str.strip` / `str.split`
(the ASCII whitespace actually occurring in chat exports). -/
def isPySpace (c : Nat) : Bool := c = 32 || (9 ≤ c && c ≤ 13)

/-- Python `str.strip()`: drop leading and trailing whitespace. -/
def pyStrip (s : PyStr) : PyStr :=
  ((s.dropWhile isPySpace).reverse.dropWhile isPySpace).reverse

/-- Helper for `pySplit`: accumulates the current (reversed) token. -/
def pySplitAux : PyStr → PyStr → List PyStr
  | [], cur => if cur.isEmpty then [] else [cur.reverse]
  | c :: rest, cur =>
      if isPySpace c then
        if cur.isEmpty then pySplitAux rest []
        else cur.reverse :: pySplitAux rest []
      else pySplitAux rest (c :: cur)

/-- Python `str.split()` with no argument: split on whitespace runs,
no empty tokens. -/
def pySplit (s : PyStr) : List PyStr := pySplitAux s []

/-- ASCII digit test. -/
def isDigitCp (c : Nat) : Bool := 48 ≤ c && c ≤ 57

/-- Value of a digit run, as `int()` of the matched text. -/
def digitsVal (ds : List Nat) : Nat := ds.foldl (fun a d => a * 10 + (d - 48)) 0

/-- First maximal digit run in a string (`re.search(r"(\d+)", s)`). -/
def firstDigitRun : PyStr → Option (List Nat)
  | [] => none
  | c :: rest =>
      if isDigitCp c then some ((c :: rest).takeWhile isDigitCp)
      else firstDigitRun rest

/-- First match of `re.search(r"(-?\d+)", s)`, returned as `abs(int(m))`:
the earliest position starting a digit, or a minus sign directly followed
by a digit, yields the value of the maximal digit run there. -/
def firstSignedIntAbs : PyStr → Option Nat
  | [] => none
  | c :: rest =>
      if isDigitCp c then some (digitsVal ((c :: rest).takeWhile isDigitCp))
      else if c = 45 && (match rest with | r :: _ => isDigitCp r | [] => false) then
        some (digitsVal (rest.takeWhile isDigitCp))
      else firstSignedIntAbs rest

/-- The character class kept by the cleaning regex in `canonical_sender`.
The class literal in the source is mojibake; decoded as UTF-8 it is
`[^A-Za-z گ ? - گ ô گ ّ - ‘ ? گ ? ‘ ']`,
whose ranges `?`–`گ` (0x3F–0x6AF) and `ّ`–`‘` (0x651–0x2018)
overlap and absorb the letter ranges, so the kept set is exactly
the apostrophe together with the interval [0x3F, 0x2018]. -/
def allowedCp (c : Nat) : Bool := c = 39 || (63 ≤ c && c ≤ 8216)

/-- `re.sub(CLASS, " ", name).strip()`: every disallowed codepoint is
replaced by a space, then the ends are stripped. -/
def cleanName (s : PyStr) : PyStr :=
  pyStrip (s.map (fun c => if allowedCp c then c else 32))

/-- Python `str.casefold`, restricted to the codepoints this development
evaluates (ASCII, basic Cyrillic, U+2C7E); identity elsewhere. -/
def casefoldCp (c : Nat) : Nat :=
  if 65 ≤ c ∧ c ≤ 90 then c + 32
  else if 1040 ≤ c ∧ c ≤ 1071 then c + 32
  else if c = 1025 then 1105
  else if c = 11390 then 575
  else c

/-- Uppercase/titlecase map on the same codepoint ranges; in particular
U+023F (`ȿ`) uppercases to U+2C7E (`Ȿ`), which lies outside the kept
character class. -/
def upperCp (c : Nat) : Nat :=
  if 97 ≤ c ∧ c ≤ 122 then c - 32
  else if 1072 ≤ c ∧ c ≤ 1103 then c - 32
  else if c = 1105 then 1025
  else if c = 575 then 11390
  else c

/-- Whether a codepoint is cased (drives `str.title`'s word boundaries),
on the same ranges. -/
def isCasedCp (c : Nat) : Bool :=
  (65 ≤ c && c ≤ 90) || (97 ≤ c && c ≤ 122) ||
  (1040 ≤ c && c ≤ 1103) || c = 1025 || c = 1105 || c = 575 || c = 11390

/-- Helper for `pyTitle`: the boolean records whether the previous
input character was cased. -/
def pyTitleAux : List Nat → Bool → List Nat
  | [], _ => []
  | c :: rest, prevCased =>
      (if prevCased then casefoldCp c else upperCp c) :: pyTitleAux rest (isCasedCp c)

/-- Python `str.title()`: uppercase each character that follows a
non-cased character, lowercase the rest. -/
def pyTitle (s : PyStr) : PyStr := pyTitleAux s false

/-- The alias table `USER_MAP` from the source. -/
def USER_MAP : List (PyStr × PyStr) :=
  [(s2l "dias", s2l "Dias"),
   (s2l "asanali", s2l "Asanali"),
   (s2l "arseniy", s2l "Arseniy"),
   (s2l "maxat", s2l "Maxat"),
   (s2l "maksat", s2l "Maxat")]

/-- `canonical_sender` from the source: clean the name down to the
allowed alphabet, take the first whitespace token, casefold it and look
it up in `USER_MAP`, falling back to the title-cased token. -/
def canonical_sender (name : PyStr) : Option PyStr :=
  if name.isEmpty then none
  else
    match pySplit (cleanName name) with
    | [] => none
    | p :: _ =>
        match USER_MAP.lookup (p.map casefoldCp) with
        | some v => some v
        | none => some (pyTitle p)

/-- The first `<a>` inside a `div.reply_to`, exposing the attributes
`extract_reply_to` reads (`link.get("href", "")`, `link.get("onclick", "")`). -/
structure Link where
  href : PyStr
  onclick : PyStr
deriving Repr, DecidableEq

/-- One markup node `div.message`, with every BeautifulSoup selector
result that `parse_message` reads exposed as a field:
`classes` is the node's class list; `idAttr` its `id` attribute;
`dateTitle` the `title` attribute of `div.pull_right.date.details`
(`none` when the div is absent or lacks the attribute); `fromName` the
stripped text of `div.from_name` (`none` when absent); `replyLink`
models `div.reply_to` (`none` = div absent, `some none` = div present
with no `<a>`); `textDiv` the stripped text of `div.text` (`none` when
absent); `mediaClasses` models `div.media_wrap` and, inside it, the
class list of the first `div`/`a` whose class matches `media_`;
`fullText` is `msg.get_text(" ", strip=True)`. -/
structure Node where
  classes : List PyStr
  idAttr : Option PyStr
  dateTitle : Option PyStr
  fromName : Option PyStr
  replyLink : Option (Option Link)
  textDiv : Option PyStr
  mediaClasses : Option (Option (List PyStr))
  fullText : PyStr
deriving Repr, DecidableEq

/-- The normalized message record built by `parse_message`. -/
structure Record where
  message_id : Option Nat
  date : PyStr
  sender : PyStr
  sender_canonical : Option PyStr
  text : PyStr
  content_type : PyStr
  reply_to : Option Nat
deriving Repr, DecidableEq

/-- `extract_reply_to` from the source: no reply div or no link yields
`None`; otherwise scan `href + " " + onclick` for the first signed
integer and return its absolute value. -/
def extract_reply_to (replyLink : Option (Option Link)) : Option Nat :=
  match replyLink with
  | none => none
  | some none => none
  | some (some l) => firstSignedIntAbs (l.href ++ [32] ++ l.onclick)

/-- `MEDIA_TYPE_MAP` from the source. -/
def MEDIA_TYPE_MAP : List (PyStr × PyStr) :=
  [(s2l "media_audio_file", s2l "audio"),
   (s2l "media_file", s2l "document"),
   (s2l "media_game", s2l "game"),
   (s2l "media_live_location", s2l "live_location"),
   (s2l "media_location", s2l "location"),
   (s2l "media_photo", s2l "photo"),
   (s2l "media_poll", s2l "poll"),
   (s2l "media_video", s2l "video"),
   (s2l "media_voice_message", s2l "voice")]

/-- `detect_media_type` from the source: inside the media wrapper, take
the first class of the found media node that starts with `media_` and is
not `media_wrap`, mapped through `MEDIA_TYPE_MAP` with default `media`. -/
def detect_media_type (mediaClasses : Option (Option (List PyStr))) : Option PyStr :=
  match mediaClasses with
  | none => none
  | some none => none
  | some (some clss) =>
      match clss.find? (fun c => (s2l "media_").isPrefixOf c && c ≠ s2l "media_wrap") with
      | some cls => some ((MEDIA_TYPE_MAP.lookup cls).getD (s2l "media"))
      | none => none

/-- Message id extraction in `parse_message`: first digit run of the
`id` attribute when that attribute is present and non-empty. -/
def extractMsgId (idAttr : Option PyStr) : Option Nat :=
  match idAttr with
  | none => none
  | some r => if r.isEmpty then none else (firstDigitRun r).map digitsVal

/-- `parse_message` from the source: `(record?, next_sender,
next_sender_canonical)`.  A node whose date title is absent or strips
to empty yields no record and leaves the continuation untouched; a
service node yields a record but also leaves the continuation
untouched; any other node yields a record and updates the continuation
to its (possibly inherited) sender. -/
def parse_message (msg : Node) (last_sender last_sender_canonical : Option PyStr) :
    Option Record × Option PyStr × Option PyStr :=
  let is_service := msg.classes.contains (s2l "service")
  let msg_id := extractMsgId msg.idAttr
  match msg.dateTitle with
  | none => (none, last_sender, last_sender_canonical)
  | some t0 =>
      let date_text := pyStrip t0
      if date_text.isEmpty then (none, last_sender, last_sender_canonical)
      else
        let sender0 : Option PyStr :=
          match msg.fromName with
          | some t => some t
          | none => last_sender
        let sender_canonical : Option PyStr :=
          match sender0 with
          | some t => if t.isEmpty then last_sender_canonical else canonical_sender t
          | none => last_sender_canonical
        let sender : PyStr :=
          match sender0 with
          | some t => if t.isEmpty then s2l "Unknown" else t
          | none => s2l "Unknown"
        let reply_to := extract_reply_to msg.replyLink
        let text0 := (msg.textDiv).getD []
        let media_type := detect_media_type msg.mediaClasses
        let ct : PyStr × PyStr :=
          if is_service then
            (s2l "service", if text0.isEmpty then msg.fullText else text0)
          else
            match media_type with
            | some m => (m, text0)
            | none => if text0.isEmpty then (s2l "unknown", text0) else (s2l "text", text0)
        let next_sender := if is_service then last_sender else some sender
        let next_canon := if is_service then last_sender_canonical else sender_canonical
        (some { message_id := msg_id, date := date_text, sender := sender,
                sender_canonical := sender_canonical, text := ct.2,
                content_type := ct.1, reply_to := reply_to },
         next_sender, next_canon)

/-- The parsing loop of `load_chat_records`: fold `parse_message` over
the node sequence, threading the continuation state and collecting the
records. -/
def parseNodes : List Node → Option PyStr → Option PyStr →
    List Record × Option PyStr × Option PyStr
  | [], ls, lc => ([], ls, lc)
  | n :: rest, ls, lc =>
      match parse_message n ls lc with
      | (r, ls2, lc2) =>
          match parseNodes rest ls2 lc2 with
          | (rs, ls3, lc3) =>
              (match r with | some rec => rec :: rs | none => rs, ls3, lc3)

/-- One row of the built record table (`compute_stats`): the parsed
timestamp is in seconds; `day` and `hour` are the derived calendar-day
and hour-of-day buckets; `sender_canonical` is the recomputed
fallback canonical identity column. -/
structure Row where
  date : Nat
  day : Nat
  hour : Nat
  sender : PyStr
  sender_canonical : PyStr
  text : PyStr
  content_type : PyStr
  word_count : Nat
  is_reply : Bool
deriving Repr, DecidableEq

/-- The table-building stage of `compute_stats`: timestamp parsing
(`pd.to_datetime(..., errors="coerce", dayfirst=True)`, an external
library) is a parameter mapping date text to an optional timestamp in
seconds; rows whose timestamp fails to parse are dropped
(`dropna(subset=["date"])`).  Derived columns follow the source:
`word_count` is the whitespace-split token count, `day`/`hour` come
from the timestamp, `is_reply` is presence of `reply_to`, and
`sender_canonical` is recomputed as `canonical_sender` of the raw
`sender` column with fallback to the raw sender (the record's `sender`
field is always a string, so the inner `fillna("Unknown")` of the
source is the identity here); the parser-produced
`sender_canonical` field of the record is not consulted. -/
def buildTable (parseDate : PyStr → Option Nat) (records : List Record) : List Row :=
  records.filterMap (fun r =>
    (parseDate r.date).map (fun t =>
      { date := t
        day := t / 86400
        hour := t % 86400 / 3600
        sender := r.sender
        sender_canonical := (canonical_sender r.sender).getD r.sender
        text := r.text
        content_type := r.content_type
        word_count := (pySplit r.text).length
        is_reply := r.reply_to.isSome }))

/-- The participant subset (`user_df`): rows whose content type is not
`service`, then rows whose canonical identity is truthy (non-empty). -/
def participantSubset (table : List Row) : List Row :=
  (table.filter (fun r => !(r.content_type == s2l "service"))).filter
    (fun r => !r.sender_canonical.isEmpty)

/-- The `if user_df.empty: raise SystemExit(...)` guard of
`compute_stats`. -/
def checkParticipants (table : List Row) : Except PyStr (List Row) :=
  let u := participantSubset table
  if u.isEmpty then Except.error (s2l "No user messages found in the export.")
  else Except.ok u

/-- Whether an `Except` value is the error case. -/
def exceptIsError : Except PyStr (List PyStr) → Bool
  | Except.error _ => true
  | Except.ok _ => false

/-- Whether the participant-subset guard fails. -/
def checkParticipantsFails (table : List Row) : Bool :=
  match checkParticipants table with
  | Except.error _ => true
  | Except.ok _ => false

/-- `user_df.sort_values("date")`: sort rows by timestamp ascending.
Modelled with the canonical stable sort; Python's sorts are stable and
every statistic proved here is stated about the sorted sequence. -/
def sortByDate (rows : List Row) : List Row :=
  List.insertionSort (fun a b => a.date ≤ b.date) rows

/-- Conversation starters: on the date-sorted rows, keep each row whose
time delta to its immediate predecessor exceeds 6 hours
(`time_diff > timedelta(hours=6)`; the first row's delta is null and
never compares greater). -/
def conversationStarters (rows : List Row) : List Row :=
  let s := sortByDate rows
  ((s.drop 1).zip s).filterMap
    (fun p => if 21600 < p.1.date - p.2.date then some p.1 else none)

/-- `conversation_starters["sender_canonical"].value_counts()` at one
identity: the number of starter rows with that canonical identity. -/
def startersPerUser (rows : List Row) (u : PyStr) : Nat :=
  (conversationStarters rows).countP (fun r => r.sender_canonical == u)

/-- The five word-count buckets of the length distribution, with the
labels and bounds of the source. -/
def length_distribution (rows : List Row) : List (PyStr × Nat) :=
  [(s2l "0-10", rows.countP (fun r => decide (r.word_count ≤ 10))),
   (s2l "11-50", rows.countP (fun r => decide (10 < r.word_count ∧ r.word_count ≤ 50))),
   (s2l "51-100", rows.countP (fun r => decide (50 < r.word_count ∧ r.word_count ≤ 100))),
   (s2l "100-500", rows.countP (fun r => decide (100 < r.word_count ∧ r.word_count ≤ 500))),
   (s2l "500+", rows.countP (fun r => decide (500 < r.word_count)))]

/-- `user_df["day"].min()`: minimum of the day column. -/
def dayMin : List Nat → Nat
  | [] => 0
  | a :: rest => rest.foldl min a

/-- `user_df["day"].max()`: maximum of the day column. -/
def dayMax : List Nat → Nat
  | [] => 0
  | a :: rest => rest.foldl max a

/-- `sorted(set(all_days.date) - set(user_df["day"]))`: the inclusive
calendar-day range from the earliest to the latest day, minus the days
present, listed ascending (the range `List.range' lo len` is already
increasing, so filtering it yields the ascending sorted difference). -/
def inactive_days (rows : List Row) : List Nat :=
  let days := rows.map Row.day
  (List.range' (dayMin days) (dayMax days + 1 - dayMin days)).filter
    (fun d => !days.contains d)

/-- `Path(name).stem`: the file name with its final extension removed
(a leading dot or a trailing dot does not start an extension). -/
def pathStem (name : PyStr) : PyStr :=
  match ((List.range name.length).filter (fun i => name.getD i 0 = 46)).getLast? with
  | some i => if 0 < i ∧ i + 1 < name.length then name.take i else name
  | none => name

/-- `message_sort_key` from the source: `re.match(r"messages(\d+)?", stem)`
is a prefix match, so any stem starting with `messages` matches, with
key the value of the digit run directly after the prefix, or 0 when
that run is empty; stems not starting with `messages` get key 0. -/
def message_sort_key (name : PyStr) : Nat :=
  let stem := pathStem name
  if (s2l "messages").isPrefixOf stem then
    let ds := (stem.drop 8).takeWhile isDigitCp
    if ds.isEmpty then 0 else digitsVal ds
  else 0

/-- Substring test (`*pat*` inside a glob). -/
def containsSub (pat s : PyStr) : Bool := decide (pat <:+: s)

/-- The glob `messages*.htm*` on a file name. -/
def matchesMessagesGlob (name : PyStr) : Bool :=
  (s2l "messages").isPrefixOf name && containsSub (s2l ".htm") (name.drop 8)

/-- The glob `*.htm*` on a file name (a leading `*` of a glob does not
match a hidden file's leading dot). -/
def matchesHtmGlob (name : PyStr) : Bool :=
  match name with
  | [] => false
  | c :: _ => !(c == 46) && containsSub (s2l ".htm") name

/-- `find_exports` from `load_chat_records`: the directory is its list
of file names in listing order; candidates matching `messages*.htm*`
sorted by `message_sort_key` (Python's `sorted` is stable; modelled by
the stable `insertionSort`), falling back to all `*.htm*` names sorted
by the same key. -/
def find_exports (names : List PyStr) : List PyStr :=
  let cands := List.insertionSort
    (fun a b => message_sort_key a ≤ message_sort_key b)
    (names.filter matchesMessagesGlob)
  if cands.isEmpty then
    List.insertionSort
      (fun a b => message_sort_key a ≤ message_sort_key b)
      (names.filter matchesHtmGlob)
  else cands

/-- The `if not files: raise SystemExit(...)` guard of
`load_chat_records`, over one export directory. -/
def selectExports (names : List PyStr) : Except PyStr (List PyStr) :=
  if (find_exports names).isEmpty then
    Except.error (s2l "No Telegram exports found")
  else Except.ok (find_exports names)

/-- C2: `canonical_sender` maps the alias spellings `"Maksat"`,
`"maksat B."` and `"Maxat"` to the same identity, but it is not
idempotent: the name `"ȿ"` (the single codepoint U+023F, kept by the
mojibake character class) is canonicalized to `"Ȿ"` (U+2C7E), which the
class strips entirely, so a second application returns `none`. -/
theorem canonical_sender_alias_stable_not_idempotent :
    canonical_sender (s2l "Maksat") = some (s2l "Maxat") ∧
    canonical_sender (s2l "maksat B.") = some (s2l "Maxat") ∧
    canonical_sender (s2l "Maxat") = some (s2l "Maxat") ∧
    canonical_sender [575] = some [11390] ∧
    canonical_sender [11390] = none := by
  decide

/-- C7 counterexample: with directory listing `["messages0.html",
"messages.html"]` both names get sort key 0 and the stable sort keeps
the listing order, so the unsuffixed `messages.html` is *not* first;
and with listing `["messagesX.html", "aaa.html"]` the primary glob
`messages*.htm*` already matches `messagesX.html` (the sort-key regex
is an unanchored prefix match), so no fallback to all markup files
occurs and `aaa.html` is not selected. -/
theorem find_exports_order_counterexample :
    find_exports [s2l "messages0.html", s2l "messages.html"] =
      [s2l "messages0.html", s2l "messages.html"] ∧
    (find_exports [s2l "messages0.html", s2l "messages.html"]).head? ≠
      some (s2l "messages.html") ∧
    find_exports [s2l "messagesX.html", s2l "aaa.html"] = [s2l "messagesX.html"] := by
  decide

/-- C6: the participant subset consists exactly of the table rows whose
content type is not `service` and whose fallback canonical identity is
non-empty, and the fatal ingestion error fires if and only if that
subset is empty after filtering. -/
theorem participant_subset_characterization (table : List Row) :
    (∀ r : Row, r ∈ participantSubset table ↔
      r ∈ table ∧ r.content_type ≠ s2l "service" ∧ r.sender_canonical ≠ []) ∧
    (checkParticipantsFails table = true ↔ participantSubset table = []) := by
  constructor
  · intro r
    simp only [participantSubset, List.mem_filter, Bool.not_eq_true', beq_eq_false_iff_ne,
      ne_eq, Bool.not_eq_true, List.isEmpty_eq_false]
    tauto
  · by_cases h : participantSubset table = []
    · simp [checkParticipantsFails, checkParticipants, List.isEmpty_iff, h]
    · simp [checkParticipantsFails, checkParticipants, List.isEmpty_iff, h]

/-- C6 witness: on the empty table the subset is empty and the guard
fails; on a one-row non-service table the row is in the subset. -/
theorem participant_subset_characterization_witness :
    checkParticipantsFails [] = true ∧
    ({ date := 0, day := 0, hour := 0, sender := s2l "Dias",
       sender_canonical := s2l "Dias", text := [], content_type := s2l "text",
       word_count := 0, is_reply := false } : Row) ∈
      participantSubset
        [{ date := 0, day := 0, hour := 0, sender := s2l "Dias",
           sender_canonical := s2l "Dias", text := [], content_type := s2l "text",
           word_count := 0, is_reply := false }] := by
  constructor
  · exact (participant_subset_characterization []).2.mpr rfl
  · exact ((participant_subset_characterization _).1 _).mpr (by decide)

/-- C3: `parse_message` yields no record exactly when the node's
timestamp title attribute is absent or contains no non-whitespace text
(the source strips the attribute before testing it), and in that case
the continuation is returned unchanged. -/
theorem parse_message_rejects_iff_no_timestamp (msg : Node) (ls lc : Option PyStr) :
    ((parse_message msg ls lc).1 = none ↔
      msg.dateTitle = none ∨ ∃ t, msg.dateTitle = some t ∧ pyStrip t = []) ∧
    ((parse_message msg ls lc).1 = none → parse_message msg ls lc = (none, ls, lc)) := by
  cases hdt : msg.dateTitle with
  | none =>
      refine ⟨by simp [parse_message, hdt], fun _ => by simp [parse_message, hdt]⟩
  | some t =>
      by_cases he : (pyStrip t).isEmpty
      · refine ⟨?_, fun _ => ?_⟩
        · simp only [parse_message, hdt, he, if_pos]
          simp [List.isEmpty_iff.mp he]
        · simp [parse_message, hdt, he]
      · have hsome : (parse_message msg ls lc).1 ≠ none := by
          simp [parse_message, hdt, he]
        refine ⟨⟨fun h => absurd h hsome, ?_⟩, fun hnone => absurd hnone hsome⟩
        rintro (h | ⟨t', ht', hstrip⟩)
        · exact absurd h (by simp [hdt])
        · injection ht' with h
          subst h
          exact absurd (List.isEmpty_iff.mpr hstrip) he

/-- A node with no date div: rejected by `parse_message`. -/
def node_nodate : Node :=
  { classes := [], idAttr := none, dateTitle := none, fromName := none,
    replyLink := none, textDiv := none, mediaClasses := none, fullText := [] }

/-- A service node with a date and an empty body. -/
def node_service : Node :=
  { classes := [s2l "service"], idAttr := none, dateTitle := some (s2l "x"),
    fromName := none, replyLink := none, textDiv := none, mediaClasses := none,
    fullText := s2l "joined chat" }

/-- A non-service node from `"Dias K."` with a date and a text body. -/
def node_dias : Node :=
  { classes := [], idAttr := some (s2l "message-5"),
    dateTitle := some (s2l "01.01.2024 10:00:00"),
    fromName := some (s2l "Dias K."), replyLink := none,
    textDiv := some (s2l "hello there"), mediaClasses := none,
    fullText := s2l "hello there" }

/-- A non-service node with a date but no sender element. -/
def node_nofrom : Node :=
  { classes := [], idAttr := none,
    dateTitle := some (s2l "01.01.2024 10:01:00"),
    fromName := none, replyLink := none,
    textDiv := some (s2l "more text"), mediaClasses := none,
    fullText := s2l "more text" }

/-- C3 witness: a node with no date div yields `(None, continuation
unchanged)`. -/
theorem parse_message_rejects_iff_no_timestamp_witness :
    parse_message node_nodate none none = (none, none, none) := by
  have h := parse_message_rejects_iff_no_timestamp node_nodate none none
  exact h.2 (h.1.mpr (Or.inl rfl))

/-- The content-type resolution order as the specification states it:
`service` first, then a detected media type, then `text` for non-empty
text, else `unknown`. -/
def resolveContentType (isService : Bool) (media : Option PyStr) (text : PyStr) : PyStr :=
  if isService then s2l "service"
  else
    match media with
    | some m => m
    | none => if text.isEmpty then s2l "unknown" else s2l "text"

/-- C4: every record built by `parse_message` carries the content type
given by the first-match resolution order, and for a service record
with empty body text the body is replaced by the node's full text. -/
theorem content_type_resolution_order (msg : Node) (ls lc : Option PyStr) (r : Record)
    (h : (parse_message msg ls lc).1 = some r) :
    r.content_type = resolveContentType (msg.classes.contains (s2l "service"))
        (detect_media_type msg.mediaClasses) (msg.textDiv.getD []) ∧
    (msg.classes.contains (s2l "service") = true →
      r.text = (if (msg.textDiv.getD []).isEmpty then msg.fullText
                else msg.textDiv.getD [])) := by
  cases hdt : msg.dateTitle with
  | none => simp [parse_message, hdt] at h
  | some t =>
      by_cases he : (pyStrip t).isEmpty
      · simp [parse_message, hdt, he] at h
      · simp only [parse_message, hdt, he, Bool.false_eq_true, if_false,
          Option.some.injEq] at h
        subst h
        by_cases hs : s2l "service" ∈ msg.classes
        · by_cases ht0 : (msg.textDiv.getD []).isEmpty
          · simp [resolveContentType, List.elem_iff, hs, ht0, List.isEmpty_iff]
          · simp [resolveContentType, List.elem_iff, hs, ht0, List.isEmpty_iff]
        · cases hm : detect_media_type msg.mediaClasses with
          | none =>
              by_cases ht0 : (msg.textDiv.getD []).isEmpty
              · simp [resolveContentType, List.elem_iff, hs, hm, ht0, List.isEmpty_iff]
              · simp [resolveContentType, List.elem_iff, hs, hm, ht0, List.isEmpty_iff]
          | some m => simp [resolveContentType, List.elem_iff, hs, hm]

/-- C4 witness: the service node with empty body resolves to type
`service` with the full node text as body. -/
theorem content_type_resolution_order_witness :
    (s2l "service" =
      resolveContentType (node_service.classes.contains (s2l "service"))
        (detect_media_type node_service.mediaClasses) (node_service.textDiv.getD [])) ∧
    (s2l "joined chat" =
      (if (node_service.textDiv.getD []).isEmpty then node_service.fullText
       else node_service.textDiv.getD [])) := by
  have h : (parse_message node_service none none).1 =
      some { message_id := none, date := s2l "x", sender := s2l "Unknown",
             sender_canonical := none, text := s2l "joined chat",
             content_type := s2l "service", reply_to := none } := by decide
  have h2 := content_type_resolution_order node_service none none _ h
  exact ⟨h2.1, h2.2 (by decide)⟩

/-- A date-parse function for witnesses: every date text parses to
timestamp 3600. -/
def pd0 : PyStr → Option Nat := fun _ => some 3600

/-- A record whose parser-produced canonical identity is deliberately
bogus, to exhibit that the table builder discards it. -/
def rec_bogus : Record :=
  { message_id := none, date := s2l "d", sender := s2l "Dias K.",
    sender_canonical := some (s2l "Bogus"), text := s2l "hi",
    content_type := s2l "text", reply_to := none }

/-- C10: the built table's canonical-identity column is recomputed from
the raw sender column alone — the table is unchanged if every record's
parser-produced canonical identity is erased, and every row stores
`canonical_sender` of its raw sender, falling back to the raw sender. -/
theorem buildTable_recomputes_canonical (pd : PyStr → Option Nat) (records : List Record) :
    buildTable pd records =
      buildTable pd (records.map (fun r => { r with sender_canonical := none })) ∧
    ∀ r ∈ buildTable pd records,
      r.sender_canonical = (canonical_sender r.sender).getD r.sender := by
  constructor
  · rw [buildTable, buildTable, List.filterMap_map]
    rfl
  · intro r hr
    simp only [buildTable, List.mem_filterMap] at hr
    obtain ⟨a, _, ha⟩ := hr
    cases hpd : pd a.date with
    | none => rw [hpd] at ha; simp at ha
    | some tt =>
        rw [hpd] at ha
        simp only [Option.map_some', Option.some.injEq] at ha
        subst ha
        rfl

/-- C10 witness: a record with a bogus parser canonical produces the
same table as with the canonical erased, and its row stores the
recomputed identity `"Dias"`. -/
theorem buildTable_recomputes_canonical_witness :
    (buildTable pd0 [rec_bogus] =
      buildTable pd0 [{ rec_bogus with sender_canonical := none }]) ∧
    ((buildTable pd0 [rec_bogus]).map Row.sender_canonical = [s2l "Dias"]) := by
  have h := buildTable_recomputes_canonical pd0 [rec_bogus]
  refine ⟨h.1, ?_⟩
  have htab : buildTable pd0 [rec_bogus] =
      [{ date := 3600, day := 0, hour := 1, sender := s2l "Dias K.",
         sender_canonical := s2l "Dias", text := s2l "hi",
         content_type := s2l "text", word_count := 1, is_reply := false }] := by
    have h2 := h.2
    decide
  rw [htab]
  decide

/-- Whether a node carries a usable timestamp: the date div's title
attribute is present and strips to non-empty text. -/
def hasDate (n : Node) : Bool :=
  match n.dateTitle with
  | some t => !(pyStrip t).isEmpty
  | none => false

/-- A service node leaves the continuation state untouched. -/
lemma parse_message_service_keeps (msg : Node) (ls lc : Option PyStr)
    (hs : msg.classes.contains (s2l "service") = true) :
    (parse_message msg ls lc).2 = (ls, lc) := by
  cases hdt : msg.dateTitle with
  | none => simp [parse_message, hdt]
  | some t =>
      by_cases he : (pyStrip t).isEmpty
      · simp [parse_message, hdt, he]
      · have hs' : s2l "service" ∈ msg.classes := List.elem_iff.mp hs
        simp [parse_message, hdt, he, hs, hs']

/-- A non-service node with a date and a non-empty sender element
yields a record and moves the continuation to that sender. -/
lemma parse_message_nonservice_fromName (msg : Node) (ls lc : Option PyStr) (nm : PyStr)
    (hs : msg.classes.contains (s2l "service") = false)
    (hf : msg.fromName = some nm) (hnm : nm.isEmpty = false)
    (hd : hasDate msg = true) :
    (parse_message msg ls lc).2 = (some nm, canonical_sender nm) ∧
    ∃ r, (parse_message msg ls lc).1 = some r ∧
      r.sender_canonical = canonical_sender nm := by
  obtain ⟨t, hdt, he⟩ : ∃ t, msg.dateTitle = some t ∧ (pyStrip t).isEmpty = false := by
    cases hdt : msg.dateTitle with
    | none => simp [hasDate, hdt] at hd
    | some t =>
        refine ⟨t, rfl, ?_⟩
        simpa [hasDate, hdt] using hd
  have hs' : s2l "service" ∉ msg.classes := by
    intro hmem
    have hc : msg.classes.contains (s2l "service") = true := List.elem_iff.mpr hmem
    rw [hc] at hs
    exact Bool.noConfusion hs
  constructor
  · simp [parse_message, hdt, he, hs, hs', hf, hnm]
  · simp only [parse_message, hdt, he, Bool.false_eq_true, if_false, hf, hnm, hs]
    exact ⟨_, rfl, rfl⟩

/-- A node with no sender element, parsed with a non-empty inherited
raw sender, yields a record whose canonical identity is recomputed from
that inherited sender. -/
lemma parse_message_record_inherits (msg : Node) (lc : Option PyStr) (nm : PyStr)
    (hf : msg.fromName = none) (hd : hasDate msg = true)
    (hnm : nm.isEmpty = false) :
    ∃ r, (parse_message msg (some nm) lc).1 = some r ∧
      r.sender_canonical = canonical_sender nm := by
  obtain ⟨t, hdt, he⟩ : ∃ t, msg.dateTitle = some t ∧ (pyStrip t).isEmpty = false := by
    cases hdt : msg.dateTitle with
    | none => simp [hasDate, hdt] at hd
    | some t =>
        refine ⟨t, rfl, ?_⟩
        simpa [hasDate, hdt] using hd
  simp only [parse_message, hdt, he, Bool.false_eq_true, if_false, hf, hnm]
  exact ⟨_, rfl, rfl⟩

/-- C1: the continuation state changes only for a non-service node that
yields a record; a service node always returns the continuation
unchanged; and a node with no sender element following a non-service
node with sender `"Dias K."`, with a service node lying between them,
is still attributed canonical identity `"Dias"`. -/
theorem continuation_frame_and_inheritance :
    (∀ (msg : Node) (ls lc : Option PyStr),
        (parse_message msg ls lc).2 ≠ (ls, lc) →
          msg.classes.contains (s2l "service") = false ∧
          ((parse_message msg ls lc).1).isSome = true) ∧
    (∀ (msg : Node) (ls lc : Option PyStr),
        msg.classes.contains (s2l "service") = true →
          (parse_message msg ls lc).2 = (ls, lc)) ∧
    (∀ n1 n2 n3 : Node,
        n1.classes.contains (s2l "service") = false →
        n1.fromName = some (s2l "Dias K.") →
        hasDate n1 = true →
        n2.classes.contains (s2l "service") = true →
        n3.fromName = none →
        hasDate n3 = true →
        ((parseNodes [n1, n2, n3] none none).1.map Record.sender_canonical).getLast? =
          some (some (s2l "Dias"))) := by
  refine ⟨?_, ?_, ?_⟩
  · intro msg ls lc hne
    cases hs : msg.classes.contains (s2l "service") with
    | true => exact absurd (parse_message_service_keeps msg ls lc hs) hne
    | false =>
        refine ⟨rfl, ?_⟩
        cases hdt : msg.dateTitle with
        | none => exact absurd (by simp [parse_message, hdt]) hne
        | some t =>
            by_cases he : (pyStrip t).isEmpty
            · exact absurd (by simp [parse_message, hdt, he]) hne
            · simp [parse_message, hdt, he]
  · exact fun msg ls lc hs => parse_message_service_keeps msg ls lc hs
  · intro n1 n2 n3 h1s h1f h1d h2s h3f h3d
    obtain ⟨hc1, r1, hr1, -⟩ :=
      parse_message_nonservice_fromName n1 none none (s2l "Dias K.") h1s h1f (by decide) h1d
    have e1 : parse_message n1 none none =
        (some r1, some (s2l "Dias K."), canonical_sender (s2l "Dias K.")) := by
      rw [← hr1, ← hc1]
    have hc2 := parse_message_service_keeps n2 (some (s2l "Dias K."))
      (canonical_sender (s2l "Dias K.")) h2s
    obtain ⟨r3, hr3, hcan3⟩ :=
      parse_message_record_inherits n3 (canonical_sender (s2l "Dias K."))
        (s2l "Dias K.") h3f h3d (by decide)
    obtain ⟨p3s, p3c, hp3⟩ : ∃ a b,
        (parse_message n3 (some (s2l "Dias K."))
          (canonical_sender (s2l "Dias K."))).2 = (a, b) :=
      ⟨_, _, rfl⟩
    have e3 : parse_message n3 (some (s2l "Dias K."))
        (canonical_sender (s2l "Dias K.")) = (some r3, p3s, p3c) := by
      rw [← hr3, ← hp3]
    cases hc2r : (parse_message n2 (some (s2l "Dias K."))
        (canonical_sender (s2l "Dias K."))).1 with
    | none =>
        have e2 : parse_message n2 (some (s2l "Dias K."))
            (canonical_sender (s2l "Dias K.")) =
            (none, some (s2l "Dias K."), canonical_sender (s2l "Dias K.")) := by
          rw [← hc2r, ← hc2]
        simp only [parseNodes, e1, e2, e3]
        simp only [List.map_cons, List.map_nil, List.getLast?_cons_cons,
          List.getLast?_singleton]
        rw [hcan3]
        decide
    | some r2 =>
        have e2 : parse_message n2 (some (s2l "Dias K."))
            (canonical_sender (s2l "Dias K.")) =
            (some r2, some (s2l "Dias K."), canonical_sender (s2l "Dias K.")) := by
          rw [← hc2r, ← hc2]
        simp only [parseNodes, e1, e2, e3]
        simp only [List.map_cons, List.map_nil, List.getLast?_cons_cons,
          List.getLast?_singleton]
        rw [hcan3]
        decide

/-- C1 witness: the inheritance scenario on concrete nodes — a node
with no sender after a `"Dias K."` node, with a service node between
them, gets canonical identity `"Dias"`. -/
theorem continuation_frame_and_inheritance_witness :
    ((parseNodes [node_dias, node_service, node_nofrom] none none).1.map
      Record.sender_canonical).getLast? = some (some (s2l "Dias")) := by
  exact continuation_frame_and_inheritance.2.2 node_dias node_service node_nofrom
    (by decide) (by decide) (by decide) (by decide) (by decide) (by decide)

/-- Each word count lands in exactly one of the five buckets. -/
lemma bucket_exactly_one (n : Nat) :
    (if n ≤ 10 then 1 else 0) + (if 10 < n ∧ n ≤ 50 then 1 else 0) +
    (if 50 < n ∧ n ≤ 100 then 1 else 0) + (if 100 < n ∧ n ≤ 500 then 1 else 0) +
    (if 500 < n then 1 else 0) = 1 := by
  split_ifs <;> omega

/-- C8: the five length-distribution buckets are exhaustive and
non-overlapping over any participant subset — every row satisfies
exactly one bucket predicate, and the five bucket counts sum to the row
count. -/
theorem length_distribution_partition (rows : List Row) :
    (((length_distribution rows).map Prod.snd).sum = rows.length) ∧
    (∀ r ∈ rows,
      ((if r.word_count ≤ 10 then 1 else 0) +
       (if 10 < r.word_count ∧ r.word_count ≤ 50 then 1 else 0) +
       (if 50 < r.word_count ∧ r.word_count ≤ 100 then 1 else 0) +
       (if 100 < r.word_count ∧ r.word_count ≤ 500 then 1 else 0) +
       (if 500 < r.word_count then 1 else 0) : Nat) = 1) := by
  constructor
  · simp only [length_distribution, List.map_cons, List.map_nil, List.sum_cons,
      List.sum_nil]
    induction rows with
    | nil => simp
    | cons a t ih =>
        simp only [List.countP_cons, List.length_cons, decide_eq_true_eq]
        split_ifs <;> omega
  · intro r _
    exact bucket_exactly_one r.word_count

/-- C8 witness: a singleton subset with an 11-word row — the counts sum
to 1 and the row sits in exactly the second bucket. -/
theorem length_distribution_partition_witness :
    ((length_distribution
        [{ date := 0, day := 0, hour := 0, sender := s2l "Dias",
           sender_canonical := s2l "Dias", text := [], content_type := s2l "text",
           word_count := 11, is_reply := false }]).map Prod.snd).sum = 1 := by
  have h := length_distribution_partition
    [{ date := 0, day := 0, hour := 0, sender := s2l "Dias",
       sender_canonical := s2l "Dias", text := [], content_type := s2l "text",
       word_count := 11, is_reply := false }]
  rw [h.1]
  rfl

/-- Counting among the rows kept by the starter filter equals counting
pairs that pass both the gap condition and the row predicate. -/
lemma countP_starters_filter (l : List (Row × Row)) (q : Row → Bool) :
    (l.filterMap
      (fun p => if 21600 < p.1.date - p.2.date then some p.1 else none)).countP q =
    l.countP (fun p => decide (21600 < p.1.date - p.2.date) && q p.1) := by
  induction l with
  | nil => rfl
  | cons a t ih =>
      by_cases hc : 21600 < a.1.date - a.2.date
      · simp [List.filterMap_cons, hc, List.countP_cons, ih]
      · simp [List.filterMap_cons, hc, List.countP_cons, ih]

/-- Counting over successor pairs of a list equals counting over the
indices of its tail, each index paired with its predecessor element. -/
lemma countP_zip_pred (f : Row → Row → Bool) :
    ∀ (t : List Row) (a : Row),
      (t.zip (a :: t)).countP (fun p => f p.2 p.1) =
      (List.range t.length).countP (fun i =>
        match (a :: t)[i]?, t[i]? with
        | some prev, some cur => f prev cur
        | _, _ => false) := by
  intro t
  induction t with
  | nil => intro a; rfl
  | cons b t' ih =>
      intro a
      rw [List.zip_cons_cons, List.countP_cons, ih b,
        List.length_cons, List.range_succ_eq_map, List.countP_cons, List.countP_map]
      have hpt : ∀ i ∈ List.range t'.length,
          ((match (b :: t')[i]?, t'[i]? with
            | some prev, some cur => f prev cur
            | _, _ => false) = true) ↔
          (((fun i =>
              match (a :: b :: t')[i]?, (b :: t')[i]? with
              | some prev, some cur => f prev cur
              | _, _ => false) ∘ Nat.succ) i = true) := by
        intro i _
        simp [List.getElem?_cons_succ]
      rw [List.countP_congr hpt]
      simp [List.getElem?_cons_zero]

/-- C5: the per-identity conversation-starter tally counts exactly the
positions `i` of the timestamp-sorted participant rows whose delta to
the immediate predecessor exceeds 6 hours (21600 s), the first sorted
row (index 0) never being counted. -/
theorem conversation_starter_characterization (rows : List Row) (u : PyStr) :
    startersPerUser rows u =
      (List.range (sortByDate rows).length).countP (fun i =>
        decide (0 < i) &&
        (match (sortByDate rows)[i - 1]?, (sortByDate rows)[i]? with
         | some prev, some cur =>
             decide (21600 < cur.date - prev.date) && (cur.sender_canonical == u)
         | _, _ => false)) := by
  unfold startersPerUser conversationStarters
  rw [countP_starters_filter]
  cases hs : sortByDate rows with
  | nil => rfl
  | cons a t =>
      rw [show ((a :: t).drop 1) = t from rfl]
      rw [countP_zip_pred
        (fun prev cur => decide (21600 < cur.date - prev.date) &&
          (cur.sender_canonical == u)) t a]
      rw [List.length_cons, List.range_succ_eq_map, List.countP_cons, List.countP_map]
      have hpt : ∀ i ∈ List.range t.length,
          ((match (a :: t)[i]?, t[i]? with
            | some prev, some cur =>
                decide (21600 < cur.date - prev.date) && (cur.sender_canonical == u)
            | _, _ => false) = true) ↔
          (((fun i => decide (0 < i) &&
              (match (a :: t)[i - 1]?, (a :: t)[i]? with
               | some prev, some cur =>
                   decide (21600 < cur.date - prev.date) && (cur.sender_canonical == u)
               | _, _ => false)) ∘ Nat.succ) i = true) := by
        intro i _
        simp [List.getElem?_cons_succ, Nat.succ_sub_one]
      rw [List.countP_congr hpt]
      simp

/-- Folding `min` never exceeds the initial accumulator. -/
lemma foldl_min_le_init (l : List Nat) : ∀ a, l.foldl min a ≤ a := by
  induction l with
  | nil => intro a; exact le_refl a
  | cons b t ih =>
      intro a
      exact le_trans (ih (min a b)) (min_le_left a b)

/-- Folding `min` is below every member. -/
lemma foldl_min_le_mem (l : List Nat) : ∀ a d, d ∈ l → l.foldl min a ≤ d := by
  induction l with
  | nil => intro a d hd; cases hd
  | cons b t ih =>
      intro a d hd
      rcases List.mem_cons.mp hd with h | h
      · subst h
        exact le_trans (foldl_min_le_init t (min a d)) (min_le_right a d)
      · exact ih (min a b) d h

/-- Folding `max` is above the initial accumulator. -/
lemma le_foldl_max_init (l : List Nat) : ∀ a, a ≤ l.foldl max a := by
  induction l with
  | nil => intro a; exact le_refl a
  | cons b t ih =>
      intro a
      exact le_trans (le_max_left a b) (ih (max a b))

/-- Folding `max` is above every member. -/
lemma mem_le_foldl_max (l : List Nat) : ∀ a d, d ∈ l → d ≤ l.foldl max a := by
  induction l with
  | nil => intro a d hd; cases hd
  | cons b t ih =>
      intro a d hd
      rcases List.mem_cons.mp hd with h | h
      · subst h
        exact le_trans (le_max_right a d) (le_foldl_max_init t (max a d))
      · exact ih (max a b) d h

/-- `dayMin` is a lower bound of the day column. -/
lemma dayMin_le {l : List Nat} {d : Nat} (hd : d ∈ l) : dayMin l ≤ d := by
  cases l with
  | nil => cases hd
  | cons a t =>
      rcases List.mem_cons.mp hd with h | h
      · subst h
        exact foldl_min_le_init t d
      · exact foldl_min_le_mem t a d h

/-- `dayMax` is an upper bound of the day column. -/
lemma le_dayMax {l : List Nat} {d : Nat} (hd : d ∈ l) : d ≤ dayMax l := by
  cases l with
  | nil => cases hd
  | cons a t =>
      rcases List.mem_cons.mp hd with h | h
      · subst h
        exact le_foldl_max_init t d
      · exact mem_le_foldl_max t a d h

/-- A filter and its complement partition a list's length. -/
lemma length_filter_partition (l : List Nat) (p : Nat → Bool) :
    (l.filter p).length + (l.filter (fun x => !p x)).length = l.length := by
  induction l with
  | nil => rfl
  | cons a t ih =>
      by_cases h : p a
      · simp [List.filter_cons, h, ih]
        omega
      · simp [List.filter_cons, h, ih]
        omega

/-- C9: for a non-empty participant subset, the inactive-day list is
the ascending set difference between the inclusive day range and the
active days, and its length plus the number of distinct active days
equals the inclusive span from earliest to latest active day. -/
theorem inactive_days_span (rows : List Row) (hne : rows ≠ []) :
    (∀ d : Nat, d ∈ inactive_days rows ↔
      (dayMin (rows.map Row.day) ≤ d ∧ d ≤ dayMax (rows.map Row.day) ∧
        d ∉ rows.map Row.day)) ∧
    List.Sorted (· < ·) (inactive_days rows) ∧
    (inactive_days rows).length + (rows.map Row.day).dedup.length =
      dayMax (rows.map Row.day) + 1 - dayMin (rows.map Row.day) := by
  have hdne : rows.map Row.day ≠ [] := by
    simpa [List.map_eq_nil_iff] using hne
  obtain ⟨d0, hd0⟩ := List.exists_mem_of_ne_nil _ hdne
  have hmm : dayMin (rows.map Row.day) ≤ dayMax (rows.map Row.day) :=
    le_trans (dayMin_le hd0) (le_dayMax hd0)
  refine ⟨?_, ?_, ?_⟩
  · intro d
    simp only [inactive_days, List.mem_filter, List.mem_range'_1,
      Bool.not_eq_true']
    constructor
    · rintro ⟨⟨h1, h2⟩, h3⟩
      refine ⟨h1, by omega, ?_⟩
      intro hmem
      have : (rows.map Row.day).contains d = true := List.elem_iff.mpr hmem
      rw [this] at h3
      exact Bool.noConfusion h3
    · rintro ⟨h1, h2, h3⟩
      refine ⟨⟨h1, by omega⟩, ?_⟩
      cases hc : (rows.map Row.day).contains d with
      | false => rfl
      | true => exact absurd (List.elem_iff.mp hc) h3
  · exact (List.pairwise_lt_range' _ _).filter _
  · have hnodup : (List.range' (dayMin (rows.map Row.day))
        (dayMax (rows.map Row.day) + 1 - dayMin (rows.map Row.day))).Nodup :=
      List.nodup_range' _ _
    have hpart := length_filter_partition
      (List.range' (dayMin (rows.map Row.day))
        (dayMax (rows.map Row.day) + 1 - dayMin (rows.map Row.day)))
      (fun d => (rows.map Row.day).contains d)
    have hkept : ((List.range' (dayMin (rows.map Row.day))
        (dayMax (rows.map Row.day) + 1 - dayMin (rows.map Row.day))).filter
          (fun d => (rows.map Row.day).contains d)).toFinset =
        (rows.map Row.day).toFinset := by
      ext x
      simp only [List.mem_toFinset, List.mem_filter, List.mem_range'_1]
      constructor
      · rintro ⟨-, hc⟩
        exact List.elem_iff.mp hc
      · intro hx
        exact ⟨⟨dayMin_le hx, by have := le_dayMax hx; omega⟩, List.elem_iff.mpr hx⟩
    have hkeptlen : ((List.range' (dayMin (rows.map Row.day))
        (dayMax (rows.map Row.day) + 1 - dayMin (rows.map Row.day))).filter
          (fun d => (rows.map Row.day).contains d)).length =
        (rows.map Row.day).dedup.length := by
      have h1 := List.Nodup.dedup
        (hnodup.filter (fun d => (rows.map Row.day).contains d))
      rw [← List.card_toFinset (rows.map Row.day), ← hkept, List.card_toFinset, h1]
    have hlen := List.length_range' (dayMin (rows.map Row.day)) 1
      (dayMax (rows.map Row.day) + 1 - dayMin (rows.map Row.day))
    simp only [inactive_days]
    omega

/-- A participant row active on calendar day `d`. -/
def rowOnDay (d : Nat) : Row :=
  { date := 86400 * d, day := d, hour := 0, sender := s2l "Dias",
    sender_canonical := s2l "Dias", text := [], content_type := s2l "text",
    word_count := 0, is_reply := false }

/-- C9 witness: active days 0 and 3 give two inactive days (1 and 2),
and 2 + 2 equals the inclusive span 4. -/
theorem inactive_days_span_witness :
    ((inactive_days [rowOnDay 0, rowOnDay 3]).length +
      (([rowOnDay 0, rowOnDay 3].map Row.day)).dedup.length = 4) ∧
    1 ∈ inactive_days [rowOnDay 0, rowOnDay 3] := by
  have h := inactive_days_span [rowOnDay 0, rowOnDay 3] (by decide)
  constructor
  · rw [h.2.2]
    decide
  · exact (h.1 1).mpr (by decide)

/-- Every name matching the primary glob `messages*.htm*` also matches
the fallback glob `*.htm*`. -/
lemma messages_glob_implies_htm (name : PyStr) :
    matchesMessagesGlob name = true → matchesHtmGlob name = true := by
  intro h
  unfold matchesMessagesGlob at h
  obtain ⟨hp, hi⟩ := Bool.and_eq_true_iff.mp h
  obtain ⟨u, hu⟩ := List.isPrefixOf_iff_prefix.mp hp
  subst hu
  have hdrop : (s2l "messages" ++ u).drop 8 = u := List.drop_left (s2l "messages") u
  rw [hdrop] at hi
  have hinf : s2l ".htm" <:+: u := of_decide_eq_true hi
  have hwhole : s2l ".htm" <:+: s2l "messages" ++ u :=
    hinf.trans (List.suffix_append (s2l "messages") u).isInfix
  show matchesHtmGlob (109 :: (s2l "essages" ++ u)) = true
  unfold matchesHtmGlob containsSub
  simp only [Bool.and_eq_true, Bool.not_eq_true']
  exact ⟨rfl, decide_eq_true hwhole⟩

/-- The stable sort by `message_sort_key` is empty only on an empty
input. -/
lemma insertionSort_key_nil_iff (l : List PyStr) :
    List.insertionSort (fun a b => message_sort_key a ≤ message_sort_key b) l = [] ↔
      l = [] := by
  constructor
  · intro h
    have hp := List.perm_insertionSort
      (fun a b => message_sort_key a ≤ message_sort_key b) l
    rw [h] at hp
    exact (hp.symm).eq_nil
  · intro h
    subst h
    rfl

/-- C7 (amended): export-file selection prefers names matching the glob
`messages*.htm*` (any name beginning with `messages` and containing a
markup extension), sorted ascending by the embedded numeric suffix (a
missing or non-numeric suffix counts as 0); if none match, it selects
all markup names sorted by the same key; and the fatal ingestion error
fires exactly when the directory holds no markup file at all. -/
theorem find_exports_characterization (names : List PyStr) :
    (names.filter matchesMessagesGlob ≠ [] →
      (find_exports names).Perm (names.filter matchesMessagesGlob)) ∧
    (names.filter matchesMessagesGlob = [] →
      (find_exports names).Perm (names.filter matchesHtmGlob)) ∧
    List.Sorted (fun a b => message_sort_key a ≤ message_sort_key b)
      (find_exports names) ∧
    (exceptIsError (selectExports names) = true ↔
      names.filter matchesHtmGlob = []) := by
  haveI instTot : IsTotal PyStr (fun a b => message_sort_key a ≤ message_sort_key b) :=
    ⟨fun a b => Nat.le_total _ _⟩
  haveI instTrans : IsTrans PyStr (fun a b => message_sort_key a ≤ message_sort_key b) :=
    ⟨fun a b c h1 h2 => Nat.le_trans h1 h2⟩
  by_cases hp : names.filter matchesMessagesGlob = []
  · have hfe : find_exports names =
        List.insertionSort (fun a b => message_sort_key a ≤ message_sort_key b)
          (names.filter matchesHtmGlob) := by
      rw [find_exports, hp]
      rfl
    refine ⟨fun h => absurd hp h, fun _ => ?_, ?_, ?_⟩
    · rw [hfe]
      exact List.perm_insertionSort _ _
    · rw [hfe]
      exact List.sorted_insertionSort _ _
    · by_cases hf : names.filter matchesHtmGlob = []
      · have hnil : find_exports names = [] := by
          rw [hfe, hf]
          rfl
        simp [selectExports, exceptIsError, List.isEmpty_iff, hnil, hf]
      · have h1 : find_exports names ≠ [] := by
          rw [hfe]
          intro hh
          exact hf ((insertionSort_key_nil_iff _).mp hh)
        simp [selectExports, exceptIsError, List.isEmpty_iff, h1, hf]
  · have hne : (List.insertionSort
        (fun a b => message_sort_key a ≤ message_sort_key b)
        (names.filter matchesMessagesGlob)).isEmpty = false := by
      cases hc : (List.insertionSort
          (fun a b => message_sort_key a ≤ message_sort_key b)
          (names.filter matchesMessagesGlob)).isEmpty
      · rfl
      · exact absurd ((insertionSort_key_nil_iff _).mp (List.isEmpty_iff.mp hc)) hp
    have hfe : find_exports names =
        List.insertionSort (fun a b => message_sort_key a ≤ message_sort_key b)
          (names.filter matchesMessagesGlob) := by
      rw [find_exports]
      simp only [hne, Bool.false_eq_true, if_false]
    refine ⟨fun _ => ?_, fun h => absurd h hp, ?_, ?_⟩
    · rw [hfe]
      exact List.perm_insertionSort _ _
    · rw [hfe]
      exact List.sorted_insertionSort _ _
    · have hfb : names.filter matchesHtmGlob ≠ [] := by
        obtain ⟨x, hx⟩ := List.exists_mem_of_ne_nil _ hp
        intro hnil
        rw [List.filter_eq_nil_iff] at hnil
        rw [List.mem_filter] at hx
        exact hnil x hx.1 (messages_glob_implies_htm x hx.2)
      have h1 : find_exports names ≠ [] := by
        rw [hfe]
        intro hh
        exact hp ((insertionSort_key_nil_iff _).mp hh)
      simp [selectExports, exceptIsError, List.isEmpty_iff, h1, hfb]

/-- C7 witness: a directory with `messages2.html` and `messages.html`
selects exactly those two (a permutation of the primary matches), and a
directory with no markup file raises the fatal error. -/
theorem find_exports_characterization_witness :
    (find_exports [s2l "messages2.html", s2l "messages.html"]).Perm
      [s2l "messages2.html", s2l "messages.html"] ∧
    exceptIsError (selectExports [s2l "readme.txt"]) = true := by
  constructor
  · have h := (find_exports_characterization
      [s2l "messages2.html", s2l "messages.html"]).1 (by decide)
    have hf : ([s2l "messages2.html", s2l "messages.html"].filter
        matchesMessagesGlob) = [s2l "messages2.html", s2l "messages.html"] := by
      decide
    have h2 : (([s2l "messages2.html", s2l "messages.html"].filter
        matchesMessagesGlob) : List PyStr).Perm
        [s2l "messages2.html", s2l "messages.html"] := by
      rw [hf]
    exact h.trans h2
  · exact (find_exports_characterization [s2l "readme.txt"]).2.2.2.mpr (by decide)
